import Mathlib

/-!
Verification of the serf bucket pipeline (google-code-export/serf).

The development shallowly embeds the HTTP response parser bucket
(src/trunk/buckets/response_buckets.c) and the TLS encrypt/decrypt bucket
pair (ssl_buckets.c) and proves properties about the embedded code.

Collaborator code that is not part of the repository sources here (the
simple/mock bucket read protocol, serf_util_readline, the default metadata
hash, APR string helpers) is modelled from the specification; such
definitions carry a doc comment saying so.
-/

set_option autoImplicit false

/-- Status codes visible in the embedded code.  `ok` is APR_SUCCESS (0);
`eagain`, `eof`, `egeneral`, `erange` are the APR codes used by the trunk
response bucket; the `serf*` constructors are the SERF_ERROR_* codes that the
repository's test suite and the ssl code use.  All constructors denote
pairwise distinct numeric codes in C. -/
inductive Status where
  | ok
  | eagain
  | eof
  | egeneral
  | erange
  | waitConn
  | truncatedHttpResponse
  | badResponse
  | lineTooLong
  | badHeader
  | sslSetupFailed
  | sslCommFailed
  | sslCertFailed
  | sslNegotiateInProgress
  deriving DecidableEq

/-- SERF_BUCKET_READ_ERROR: every status except APR_SUCCESS, APR_EAGAIN,
APR_EOF and SERF_ERROR_WAIT_CONN counts as a read error. -/
def readError (s : Status) : Bool :=
  match s with
  | .ok | .eagain | .eof | .waitConn => false
  | _ => true

/-- Line-terminator classification returned by readline
(SERF_NEWLINE_NONE / _CR / _LF / _CRLF / _CRLF_SPLIT). -/
inductive Found where
  | none
  | cr
  | lf
  | crlf
  | crlfSplit
  deriving DecidableEq

/-- Modelled from the spec: an underlying byte stream is a scripted
sequence of segments.  Each segment is the data one delivery makes
available together with the status reported once that data is consumed
(spec section 2, mock bucket; spec section 4.2, simple bucket).  A simple
bucket is a single segment whose status is EOF; a mock bucket is one
segment per scripted action. -/
def ByteStream : Type := List (List Char × Status)

instance : DecidableEq ByteStream := by
  unfold ByteStream
  infer_instance

/-- Modelled from the spec: a simple bucket holding one in-memory byte
range; reads drain it and the final read reports EOF. -/
def simpleStream (data : List Char) : ByteStream := [(data, Status.eof)]

/-- Modelled from the spec: `read(max)` returns up to `max` bytes of the
currently available segment, never more than `max`; consuming a segment to
its end surfaces that segment's status, otherwise the status is OK.
Reading an exhausted stream returns EOF with zero bytes (spec section 8,
invariant 3). -/
def streamRead (n : Nat) (s : ByteStream) : List Char × Status × ByteStream :=
  match s with
  | [] => ([], Status.eof, [])
  | (d, st) :: rest =>
      if d.length ≤ n then
        (d, st, rest)
      else
        (d.take n, Status.ok, (d.drop n, st) :: rest)

/-- Modelled from the spec: `peek` shows the currently visible bytes
without advancing; EOF means what is shown is all there is, OK means more
may follow; an empty visible range surfaces the pending segment status. -/
def streamPeek (s : ByteStream) : List Char × Status :=
  match s with
  | [] => ([], Status.eof)
  | (d, st) :: rest =>
      if d = [] then ([], st)
      else (d, if rest = [] then st else Status.ok)

/-- Modelled from the spec: the readline scan with acceptable mask
SERF_NEWLINE_ANY (serf_util_readline).  It consumes through the first line
terminator: CRLF when a CR is immediately followed by LF, a lone CR when
followed by another byte, CRLF_SPLIT when the data ends exactly on a CR,
LF on its own; with no terminator everything is consumed and NONE is
reported.  The first component is the consumed data (terminator
included), then the terminator kind, then the unconsumed remainder. -/
def scanAny : List Char → List Char × Found × List Char
  | [] => ([], Found.none, [])
  | '\r' :: [] => (['\r'], Found.crlfSplit, [])
  | '\r' :: '\n' :: rest => (['\r', '\n'], Found.crlf, rest)
  | '\r' :: c :: rest => (['\r'], Found.cr, c :: rest)
  | '\n' :: rest => (['\n'], Found.lf, rest)
  | c :: rest =>
      let r := scanAny rest
      (c :: r.1, r.2.1, r.2.2)

/-- Result of a readline call on a stream. -/
structure RL where
  data : List Char
  found : Found
  status : Status
  rest : ByteStream
  deriving DecidableEq

/-- Modelled from the spec: readline on the stream applies the scan to the
currently available segment; the returned data includes the terminator
when found; consuming the segment to its end surfaces its status. -/
def streamReadline (s : ByteStream) : RL :=
  match s with
  | [] => ⟨[], Found.none, Status.eof, []⟩
  | (d, st) :: rest =>
      let r := scanAny d
      if r.2.2 = [] then
        ⟨r.1, r.2.1, st, rest⟩
      else
        ⟨r.1, r.2.1, Status.ok, (r.2.2, st) :: rest⟩

/-- Model of apr_isspace restricted to the byte values the embedded code
feeds it (ASCII): space, tab, LF, VT, FF, CR. -/
def aprIsspace (c : Char) : Bool :=
  c = ' ' || c = '\t' || c = '\n' || c = '\x0b' || c = '\x0c' || c = '\r'

/-- Numeric value of a decimal digit character (c - '0'). -/
def digitVal (c : Char) : Int :=
  Int.ofNat c.toNat - Int.ofNat '0'.toNat

/-- Model of apr_date_checkmask on the line content: `#` requires a
decimal digit, `*` accepts the whole remainder, any other mask byte must
match literally.  The C caller passes the line buffer without a NUL
terminator; the model treats running past the end of the line content as
a mismatch, which is apr_date_checkmask's behaviour on a NUL-terminated
string of the same content. -/
def checkmask : List Char → List Char → Bool
  | _, [] => false
  | data, m :: ms =>
      if m = '*' then true
      else
        match data with
        | [] => false
        | d :: ds =>
            if m = '#' then d.isDigit && checkmask ds ms
            else d = m && checkmask ds ms

/-- The status-line mask used by serf_bucket_response_status. -/
def httpMask : List Char := "HTTP/#.# ###*".toList

/-- Accumulate a decimal digit run into an integer value. -/
def parseDigits (acc : Int) : List Char → Int × List Char
  | [] => (acc, [])
  | c :: cs =>
      if c.isDigit then parseDigits (acc * 10 + digitVal c) cs
      else (acc, c :: cs)

/-- Largest apr_int64_t value. -/
def i64Max : Int := 9223372036854775807

/-- Smallest apr_int64_t value. -/
def i64Min : Int := -9223372036854775808

/-- Model of apr_strtoi64 base 10 on the value bytes: skip leading
whitespace, accept one optional sign, consume the maximal digit run (value
0 when there are no digits), and stop at the first non-digit.  Returns the
value, the rest of the input from the stop position, and whether the exact
value lies outside the apr_int64_t range (ERANGE; the returned value is
then clamped like strtoll). -/
def aprStrtoi64 (s : List Char) : Int × List Char × Bool :=
  match s.dropWhile aprIsspace with
  | [] => (0, [], false)
  | c :: t =>
      if c = '-' then
        let r := parseDigits 0 t
        let v := -r.1
        if v < i64Min then (i64Min, r.2, true) else (v, r.2, false)
      else if c = '+' then
        let r := parseDigits 0 t
        if r.1 > i64Max then (i64Max, r.2, true) else (r.1, r.2, false)
      else
        let r := parseDigits 0 (c :: t)
        if r.1 > i64Max then (i64Max, r.2, true) else (r.1, r.2, false)

/-- Modelled from the spec: the default metadata store behind
serf_bucket_set_metadata / serf_bucket_get_metadata is a hash table from
header name bytes to value bytes; setting an existing key replaces its
value and lookup is by exact key bytes. -/
def metaSet (k v : List Char) : List (List Char × List Char) → List (List Char × List Char)
  | [] => [(k, v)]
  | (k', v') :: rest =>
      if k' = k then (k, v) :: rest
      else (k', v') :: metaSet k v rest

/-- Exact-key lookup in the metadata store. -/
def metaGet (k : List Char) : List (List Char × List Char) → Option (List Char)
  | [] => none
  | (k', v') :: rest => if k' = k then some v' else metaGet k rest

/-- Parser states of the response bucket (response_context_t.state). -/
inductive RState where
  | statusLine
  | headers
  | body
  deriving DecidableEq

/-- Line buffer states of the response bucket (response_context_t.lstate):
LINE_EMPTY, LINE_READY, LINE_PARTIAL, LINE_CRLF_SPLIT. -/
inductive LState where
  | empty
  | ready
  | part
  | crlfSplit
  deriving DecidableEq

/-- Parsed serf_status_line.  `version` is SERF_HTTP_VERSION(major, minor);
modelled from the spec: the version is stored as major*1000+minor. -/
structure StatusLine where
  version : Int
  code : Int
  reason : List Char
  deriving DecidableEq

/-- The limit on the length of a line in the status-line or headers
(LINE_LIMIT). -/
def LINE_LIMIT : Nat := 8000

/-- State of a response bucket: response_context_t together with the
bucket-level metadata store that run_machine fills through
serf_bucket_set_metadata. -/
structure RespCtx where
  stream : ByteStream
  state : RState
  lstate : LState
  line : List Char
  sl : Option StatusLine
  headers : List (List Char × List Char)
  chunked : Int
  bodyLeft : Int
  deriving DecidableEq

/-- serf_bucket_response_create: the context is allocated with
serf_bucket_mem_alloc, which does not zero memory, and only `stream` is
assigned.  The machine fields start at the zero values of their enums
(STATE_STATUS_LINE, LINE_EMPTY, line_used 0), which is what every use in
the repository relies on; `chunked` and `body_left` are read before ever
being written when no Content-Length header arrives, so they stay model
parameters (`g1`, `g2`) standing for the uninitialized memory. -/
def serf_bucket_response_create (stream : ByteStream) (g1 g2 : Int) : RespCtx :=
  { stream := stream
    state := RState.statusLine
    lstate := LState.empty
    line := []
    sl := none
    headers := []
    chunked := g1
    bodyLeft := g2 }

/-- The while(1) loop of fetch_line.  Each iteration either resolves a
pending split CRLF via peek or pulls one readline result from the stream;
a nonzero status or a completed line exits.  `fuel` bounds the number of
iterations (the C loop can spin forever on a pathological stream, e.g. a
peek that reports success with no bytes). -/
def fetchLineLoop : Nat → RespCtx → Option (Status × RespCtx)
  | 0, _ => none
  | Nat.succ fuel, ctx =>
      if ctx.lstate = LState.crlfSplit then
        let p := streamPeek ctx.stream
        match p.1 with
        | [] =>
            if p.2 = Status.ok then fetchLineLoop fuel ctx
            else some (p.2, ctx)
        | c :: _ =>
            let ctx1 :=
              if c = '\n' then
                { ctx with stream := (streamRead 1 ctx.stream).2.2 }
              else ctx
            some (p.2, { ctx1 with lstate := LState.ready })
      else
        let r := streamReadline ctx.stream
        if r.status ≠ Status.ok then
          some (r.status, { ctx with stream := r.rest })
        else if ctx.line.length + r.data.length > LINE_LIMIT then
          some (Status.egeneral, { ctx with stream := r.rest })
        else
          match r.found with
          | Found.none =>
              fetchLineLoop fuel
                { ctx with stream := r.rest, lstate := LState.part,
                           line := ctx.line ++ r.data }
          | Found.crlfSplit =>
              fetchLineLoop fuel
                { ctx with stream := r.rest, lstate := LState.crlfSplit,
                           line := ctx.line ++ r.data.dropLast }
          | f =>
              let keep := r.data.length - (if f = Found.crlf then 2 else 1)
              some (Status.ok,
                { ctx with stream := r.rest, lstate := LState.ready,
                           line := ctx.line ++ r.data.take keep })

/-- fetch_line: if the previous line was complete the caller has used it,
so reset the buffer, then run the accumulation loop. -/
def fetch_line (fuel : Nat) (ctx : RespCtx) : Option (Status × RespCtx) :=
  let ctx1 :=
    if ctx.lstate = LState.ready then
      { ctx with lstate := LState.empty, line := [] }
    else ctx
  fetchLineLoop fuel ctx1

/-- The Content-Length / framing step at the end of run_machine's
STATE_HEADERS branch: look the Content-Length key up in the metadata, and
when present set chunked to 0 and body_left to the apr_strtoi64 value
(returning ERANGE on overflow before the state advances); then enter
STATE_BODY. -/
def afterHeaders (ctx : RespCtx) : Option (Status × RespCtx) :=
  match metaGet "Content-Length".toList ctx.headers with
  | some v =>
      let r := aprStrtoi64 v
      let ctx1 := { ctx with chunked := 0, bodyLeft := r.1 }
      if r.2.2 then some (Status.erange, ctx1)
      else some (Status.ok, { ctx1 with state := RState.body })
  | none => some (Status.ok, { ctx with state := RState.body })

/-- The do/while loop of run_machine's STATE_HEADERS branch: fetch lines;
a nonempty ready line must contain a colon (else APR_EGENERAL) and is
split at the first colon, the name being the bytes before it and the value
the bytes after it with leading whitespace skipped; the loop ends at the
empty line. -/
def headersLoop : Nat → RespCtx → Option (Status × RespCtx)
  | 0, _ => none
  | Nat.succ fuel, ctx =>
      match fetch_line (Nat.succ fuel) ctx with
      | none => none
      | some (st, ctx1) =>
          if st ≠ Status.ok then some (st, ctx1)
          else
            if ctx1.lstate = LState.ready ∧ ctx1.line ≠ [] then
              match ctx1.line.findIdx? (fun c => c = ':') with
              | none => some (Status.egeneral, ctx1)
              | some i =>
                  let k := ctx1.line.take i
                  let v := (ctx1.line.drop (i + 1)).dropWhile aprIsspace
                  headersLoop fuel
                    { ctx1 with headers := metaSet k v ctx1.headers }
            else
              afterHeaders ctx1

/-- run_machine: one step of the response parser state machine.  In
STATE_BODY the C code breaks out of the switch with `status` never
assigned and returns it; the embedded callers (the wait loops) never reach
that state, and the model returns OK there as a placeholder for the
uninitialized value. -/
def run_machine (fuel : Nat) (ctx : RespCtx) : Option (Status × RespCtx) :=
  match ctx.state with
  | RState.statusLine =>
      match fetch_line fuel ctx with
      | none => none
      | some (st, c) =>
          if st = Status.ok then some (st, { c with state := RState.headers })
          else some (st, c)
  | RState.headers => headersLoop fuel ctx
  | RState.body => some (Status.ok, ctx)

/-- wait_for_sline: loop run_machine while still parsing the status line,
stopping at the first nonzero status. -/
def wait_for_sline : Nat → Nat → RespCtx → Option (Status × RespCtx)
  | 0, _, _ => none
  | Nat.succ w, fuel, ctx =>
      if ctx.state = RState.statusLine then
        match run_machine fuel ctx with
        | none => none
        | some (st, c) =>
            if st = Status.ok then wait_for_sline w fuel c
            else some (st, c)
      else some (Status.ok, ctx)

/-- wait_for_body: loop run_machine until STATE_BODY is reached, stopping
at the first nonzero status. -/
def wait_for_body : Nat → Nat → RespCtx → Option (Status × RespCtx)
  | 0, _, _ => none
  | Nat.succ w, fuel, ctx =>
      if ctx.state ≠ RState.body then
        match run_machine fuel ctx with
        | none => none
        | some (st, c) =>
            if st = Status.ok then wait_for_body w fuel c
            else some (st, c)
      else some (Status.ok, ctx)

/-- serf_bucket_response_status: once the parser has left
STATE_STATUS_LINE the stored status line is returned; otherwise the parser
is driven to the headers, the line is matched against `HTTP/#.# ###*`
(APR_EGENERAL when it does not match), the version is built from the
digits at offsets 5 and 7, the code is apr_strtoi64 starting at offset 8,
and the reason is the rest of the line after skipping one whitespace
character when present. -/
def serf_bucket_response_status (w fuel : Nat) (ctx : RespCtx) :
    Option (Status × Option StatusLine × RespCtx) :=
  if ctx.state = RState.statusLine then
    match wait_for_sline w fuel ctx with
    | none => none
    | some (st, c) =>
        if st ≠ Status.ok then some (st, none, c)
        else if checkmask c.line httpMask then
          let version := 1000 * digitVal (c.line.getD 5 'x')
                           + digitVal (c.line.getD 7 'x')
          let r := aprStrtoi64 (c.line.drop 8)
          let reason :=
            match r.2.1 with
            | [] => ([] : List Char)
            | ch :: t => if aprIsspace ch then t else ch :: t
          let sl : StatusLine := ⟨version, r.1, reason⟩
          some (Status.ok, some sl, { c with sl := some sl })
        else some (Status.egeneral, none, c)
  else some (Status.ok, ctx.sl, ctx)

/-- SERF_READ_ALL_AVAIL: the all-ones apr_size_t. -/
def allAvail : Nat := 2 ^ 64 - 1

/-- The C comparison `requested > ctx->body_left` converts the signed
64-bit body_left to an unsigned 64-bit value. -/
def uint64OfInt (i : Int) : Nat := (i % (2 : Int) ^ 64).toNat

/-- serf_response_read: reach STATE_BODY, clamp the request to body_left
(via the unsigned comparison), delegate the read to the stream, and on a
zero status decrement body_left, turning it into APR_EOF when body_left
hits zero.  Any nonzero stream status — including a premature APR_EOF — is
returned unchanged. -/
def serf_response_read (w fuel : Nat) (requested : Nat) (ctx : RespCtx) :
    Option (Status × List Char × RespCtx) :=
  match wait_for_body w fuel ctx with
  | none => none
  | some (st, ctx1) =>
      if st ≠ Status.ok then some (st, [], ctx1)
      else
        let bl := uint64OfInt ctx1.bodyLeft
        let req := if requested > bl then bl else requested
        let r := streamRead req ctx1.stream
        let ctx2 := { ctx1 with stream := r.2.2 }
        if r.2.1 = Status.ok then
          let ctx3 := { ctx2 with bodyLeft := ctx2.bodyLeft - Int.ofNat r.1.length }
          if ctx3.bodyLeft = 0 then some (Status.eof, r.1, ctx3)
          else some (Status.ok, r.1, ctx3)
        else some (r.2.1, r.1, ctx2)

/-- Error classes SSL_get_error can report to ssl_decrypt / ssl_encrypt. -/
inductive SSLErr where
  | syscall
  | wantRead
  | wantWrite
  | ssl
  | other
  deriving DecidableEq

/-- Shared TLS context (serf_ssl_context_t), restricted to the state the
embedded operations touch.  The OpenSSL handles are held by the engine
abstraction; `encrypt_pending` is the aggregate of ciphertext chunks
(None models the NULL pointer installed by the encrypt destroy);
`encrypt_databuf_status` is encrypt.databuf.status, the only databuf field
the embedded code writes directly. -/
structure SSLCtx where
  refcount : Int
  crypt_status : Status
  pending_err : Status
  fatal_err : Status
  want_read : Bool
  renegotiation : Bool
  encrypt_pending : Option (List (List Char))
  encrypt_stream : Option ByteStream
  encrypt_stream_next : List ByteStream
  encrypt_databuf_status : Status
  decrypt_stream : Option ByteStream
  deriving DecidableEq

/-- Result of SSL_read as observed by ssl_decrypt: plaintext bytes
(ssl_len > 0), a zero return together with the SSL_get_shutdown /
SSL_ERROR_ZERO_RETURN observations, or a negative return classified by
SSL_get_error (with SSL_in_init for the SSL_ERROR_SSL case). -/
inductive SSLReadRes where
  | data (bytes : List Char)
  | zero (receivedShutdown : Bool) (zeroReturn : Bool)
  | err (e : SSLErr) (inInit : Bool)

/-- Result of SSL_write as observed by ssl_encrypt. -/
inductive SSLWriteRes where
  | written
  | err (e : SSLErr) (inInit : Bool)

/-- The external TLS engine.  SSL_read / SSL_write may re-enter the
context through the BIO hooks (bio_bucket_read / bio_bucket_write), so
each call is a transformer of the shared context: it may consume the
decrypt stream, append ciphertext to encrypt_pending and set
crypt_status, exactly the effects the hooks have. -/
structure Engine where
  sslRead : SSLCtx → Nat → SSLReadRes × SSLCtx
  sslWrite : SSLCtx → List Char → SSLWriteRes × SSLCtx

/-- ssl_decrypt: a latched fatal_err is returned at once; otherwise
want_read is cleared, crypt_status reset, SSL_read is made and its result
mapped: data surfaces with crypt_status; zero-return is EOF on a clean
shutdown, a latched SSL_COMM_FAILED otherwise; SYSCALL surfaces
crypt_status; WANT_READ/WANT_WRITE give EAGAIN; an SSL error surfaces a
pending_err once, or latches SETUP/COMM as fatal_err. -/
def ssl_decrypt (eng : Engine) (bufsize : Nat) (ctx : SSLCtx) :
    Status × List Char × SSLCtx :=
  if ctx.fatal_err ≠ Status.ok then (ctx.fatal_err, [], ctx)
  else
    let ctx0 := { ctx with want_read := false, crypt_status := Status.ok }
    match eng.sslRead ctx0 bufsize with
    | (SSLReadRes.data bytes, c) => (c.crypt_status, bytes, c)
    | (SSLReadRes.zero sd zr, c) =>
        if sd ∧ zr then (Status.eof, [], c)
        else (Status.sslCommFailed, [], { c with fatal_err := Status.sslCommFailed })
    | (SSLReadRes.err SSLErr.syscall _, c) => (c.crypt_status, [], c)
    | (SSLReadRes.err SSLErr.wantRead _, c) => (Status.eagain, [], c)
    | (SSLReadRes.err SSLErr.wantWrite _, c) => (Status.eagain, [], c)
    | (SSLReadRes.err SSLErr.ssl inInit, c) =>
        if c.pending_err ≠ Status.ok then
          (c.pending_err, [], { c with pending_err := Status.ok })
        else
          let e := if inInit then Status.sslSetupFailed else Status.sslCommFailed
          (e, [], { c with fatal_err := e })
    | (SSLReadRes.err SSLErr.other _, c) =>
        (Status.sslCommFailed, [], { c with fatal_err := Status.sslCommFailed })

/-- Modelled from the spec: serf_bucket_read on the pending-ciphertext
aggregate returns bytes of the front child only, never more than
requested; EOF is reported with the bytes of the last child, and an empty
aggregate reports no data available. -/
def aggRead (n : Nat) (agg : List (List Char)) :
    List Char × Status × List (List Char) :=
  match agg with
  | [] => ([], Status.eagain, [])
  | d :: rest =>
      if d.length ≤ n then
        (d, if rest = [] then Status.eof else Status.ok, rest)
      else (d.take n, Status.ok, d.drop n :: rest)

/-- Modelled from the spec: serf_bucket_read_iovec on the
pending-ciphertext aggregate gathers up to `vecs` children and `n` bytes
front to back; EOF when the aggregate is fully drained, OK otherwise. -/
def aggReadIovec (n : Nat) (vecs : Nat) (agg : List (List Char)) :
    List Char × Status × List (List Char) :=
  match vecs, agg with
  | _, [] => ([], Status.eof, [])
  | 0, a => ([], Status.ok, a)
  | Nat.succ v, d :: rest =>
      if n < d.length then (d.take n, Status.ok, d.drop n :: rest)
      else if n = d.length then
        (d, if rest = [] then Status.eof else Status.ok, rest)
      else
        let r := aggReadIovec (n - d.length) v rest
        (d ++ r.1, r.2.1, r.2.2)

/-- Modelled from the spec: serf_bucket_read_iovec on the encrypt source
stream drains segments front to back up to `vecs` ranges and `n` bytes,
stopping early at a segment whose status is not OK. -/
def streamReadIovec (n : Nat) (vecs : Nat) (s : ByteStream) :
    List Char × Status × ByteStream :=
  match vecs, s with
  | _, [] => ([], Status.eof, [])
  | 0, s => ([], Status.ok, s)
  | Nat.succ v, (d, st) :: rest =>
      if n < d.length then (d.take n, Status.ok, (d.drop n, st) :: rest)
      else if st ≠ Status.ok ∨ n = d.length then (d, st, rest)
      else
        let r := streamReadIovec (n - d.length) v rest
        (d ++ r.1, r.2.1, r.2.2)

/-- The do/while loop of ssl_encrypt.  The boolean in the result is true
for the `return status` inside the SSL_ERROR_SYSCALL branch, which skips
the final drain of encrypt_pending; false means the loop condition
`!status && interim_bufsize` ended the loop.  `fuel` bounds the
iterations; None also models calling with a NULL encrypt stream. -/
def encryptLoop (eng : Engine) : Nat → Nat → SSLCtx → Option (Status × SSLCtx × Bool)
  | 0, _, _ => none
  | Nat.succ fuel, interim, ctx =>
      if ctx.want_read then
        let st := if ctx.crypt_status = Status.ok then Status.eagain
                  else ctx.crypt_status
        some (st, ctx, false)
      else
        match ctx.encrypt_stream with
        | none => none
        | some s =>
            let rd := streamReadIovec interim 64 s
            let dat := rd.1
            let st := rd.2.1
            let ctxr := { ctx with encrypt_stream := some rd.2.2 }
            if readError st = false ∧ dat ≠ [] then
              let interim1 := interim - dat.length
              let ctx1 := { ctxr with crypt_status := Status.ok }
              match eng.sslWrite ctx1 dat with
              | (SSLWriteRes.written, c) =>
                  if st = Status.ok ∧ interim1 ≠ 0 then
                    encryptLoop eng fuel interim1 c
                  else some (st, c, false)
              | (SSLWriteRes.err e inInit, c) =>
                  let c1 :=
                    match c.encrypt_stream with
                    | some cs =>
                        { c with encrypt_stream := some ((dat, Status.ok) :: cs) }
                    | none => c
                  match e with
                  | SSLErr.syscall =>
                      let s0 := c1.crypt_status
                      if readError s0 then some (s0, c1, true)
                      else if s0 = Status.ok ∧ interim1 ≠ 0 then
                        encryptLoop eng fuel interim1 c1
                      else some (s0, c1, false)
                  | SSLErr.wantRead =>
                      some (Status.waitConn, { c1 with want_read := true }, false)
                  | SSLErr.wantWrite => some (Status.waitConn, c1, false)
                  | SSLErr.ssl =>
                      if c1.pending_err ≠ Status.ok then
                        some (c1.pending_err, { c1 with pending_err := Status.ok },
                              false)
                      else
                        let e' := if inInit then Status.sslSetupFailed
                                  else Status.sslCommFailed
                        some (e', { c1 with fatal_err := e' }, false)
                  | SSLErr.other =>
                      some (Status.sslCommFailed,
                            { c1 with fatal_err := Status.sslCommFailed }, false)
            else
              if st = Status.ok ∧ interim ≠ 0 then encryptLoop eng fuel interim ctxr
              else some (st, ctxr, false)

/-- ssl_encrypt: a latched fatal_err is returned at once; otherwise
already-encrypted pending data is returned immediately when present
(EOF promoted to success); otherwise the loop pulls plaintext from the
encrypt stream through SSL_write, and finally — unless a read error was
returned from inside the loop — the pending ciphertext produced by the
engine is drained into the caller's buffer, an OK drain forcing an OK
result. -/
def ssl_encrypt (eng : Engine) (fuel bufsize : Nat) (ctx : SSLCtx) :
    Option (Status × List Char × SSLCtx) :=
  if ctx.fatal_err ≠ Status.ok then some (ctx.fatal_err, [], ctx)
  else
    match ctx.encrypt_pending with
    | none => none
    | some pend =>
        let r := aggRead bufsize pend
        if readError r.2.1 then
          some (r.2.1, [], { ctx with encrypt_pending := some r.2.2 })
        else if r.1 ≠ [] then
          let st := if r.2.1 = Status.eof then Status.ok else r.2.1
          some (st, r.1, { ctx with encrypt_pending := some r.2.2 })
        else
          match encryptLoop eng fuel bufsize { ctx with encrypt_pending := some r.2.2 } with
          | none => none
          | some (st, c, early) =>
              if early then some (st, [], c)
              else if readError st then some (st, [], c)
              else
                match c.encrypt_pending with
                | none => none
                | some pend2 =>
                    let dr := aggReadIovec bufsize 64 pend2
                    let c2 := { c with encrypt_pending := some dr.2.2 }
                    let st2 := if dr.2.1 = Status.ok then Status.ok else st
                    some (st2, dr.1, c2)

/-- Which stream-pointer field of the shared context a bucket's
`our_stream` points at.  serf_bucket_ssl_encrypt_create stores
`&ssl_ctx->encrypt.stream` into every encrypt bucket and
serf_bucket_ssl_decrypt_create stores `&ssl_ctx->decrypt.stream` into
every decrypt bucket, so `our_stream` is an alias of the context field
itself, never a private copy. -/
inductive StreamField where
  | encryptStream
  | decryptStream
  deriving DecidableEq

/-- Per-bucket data of an ssl bucket (ssl_context_t): the databuf pointer
and the our_stream pointer both select a side of the shared context. -/
structure SSLBucket where
  ourStream : StreamField
  deriving DecidableEq

/-- Dereference a bucket's our_stream pointer in the shared context. -/
def derefStream (ctx : SSLCtx) : StreamField → Option ByteStream
  | StreamField.encryptStream => ctx.encrypt_stream
  | StreamField.decryptStream => ctx.decrypt_stream

/-- serf_bucket_ssl_decrypt_create: serf_bucket_ssl_create increments the
context's refcount unconditionally; then, if a decrypt stream is already
attached, NULL is returned instead of the new bucket; otherwise the
stream is attached and the bucket returned. -/
def serf_bucket_ssl_decrypt_create (stream : ByteStream) (ctx : SSLCtx) :
    Option SSLBucket × SSLCtx :=
  let ctx1 := { ctx with refcount := ctx.refcount + 1 }
  if ctx1.decrypt_stream ≠ none then (none, ctx1)
  else (some ⟨StreamField.decryptStream⟩,
        { ctx1 with decrypt_stream := some stream })

/-- serf_bucket_ssl_encrypt_create: refcount is incremented; the first
stream becomes the active encrypt stream (wrapped in a fresh aggregate),
later streams are appended to the tail of the encrypt.stream_next
queue. -/
def serf_bucket_ssl_encrypt_create (stream : ByteStream) (ctx : SSLCtx) :
    SSLBucket × SSLCtx :=
  let ctx1 := { ctx with refcount := ctx.refcount + 1 }
  match ctx1.encrypt_stream with
  | none => (⟨StreamField.encryptStream⟩, { ctx1 with encrypt_stream := some stream })
  | some _ =>
      (⟨StreamField.encryptStream⟩,
        { ctx1 with encrypt_stream_next := ctx1.encrypt_stream_next ++ [stream] })

/-- serf_ssl_destroy_and_data: drop one reference; the boolean reports
whether the refcount reached zero, in which case the C frees the shared
context. -/
def serf_ssl_destroy_and_data (ctx : SSLCtx) : SSLCtx × Bool :=
  let ctx1 := { ctx with refcount := ctx.refcount - 1 }
  (ctx1, ctx1.refcount = 0)

/-- serf_ssl_encrypt_destroy_and_data.  The guard compares
`ssl_ctx->encrypt.stream` with `*ctx->our_stream`; since our_stream is the
address of that very field, the two sides always coincide.  When the guard
holds, the active stream and the pending aggregate are destroyed, the
statuses reset, the next queued stream (if any) promoted with a fresh
pending aggregate, and a reference dropped.  None models the else branch
(`return;`): the bucket is kept and nothing happens. -/
def serf_ssl_encrypt_destroy_and_data (b : SSLBucket) (ctx : SSLCtx) :
    Option (SSLCtx × Bool) :=
  if derefStream ctx b.ourStream = ctx.encrypt_stream then
    let c1 := { ctx with crypt_status := Status.ok,
                         encrypt_databuf_status := Status.ok }
    let c2 :=
      match c1.encrypt_stream_next with
      | [] => { c1 with encrypt_stream := none, encrypt_pending := none }
      | s :: rest =>
          { c1 with encrypt_stream := some s, encrypt_pending := some [],
                    encrypt_stream_next := rest }
    some (serf_ssl_destroy_and_data c2)
  else none

/-- serf_ssl_decrypt_destroy_and_data: destroys the attached stream
bucket and drops a reference; the decrypt.stream pointer itself is never
reset to NULL. -/
def serf_ssl_decrypt_destroy_and_data (_b : SSLBucket) (ctx : SSLCtx) :
    SSLCtx × Bool :=
  serf_ssl_destroy_and_data ctx

/-- Modelled from the spec: serf_ssl_read delivers a read on an ssl bucket
to the reader function of the side its databuf belongs to
(serf_databuf_read with the databuf empty passes the request straight to
the side's reader). -/
def serf_ssl_read (eng : Engine) (b : SSLBucket) (fuel bufsize : Nat)
    (ctx : SSLCtx) : Option (Status × List Char × SSLCtx) :=
  match b.ourStream with
  | StreamField.decryptStream => some (ssl_decrypt eng bufsize ctx)
  | StreamField.encryptStream => ssl_encrypt eng fuel bufsize ctx

/-- A line content: bytes containing neither CR nor LF. -/
def noNL (l : List Char) : Prop := ∀ c ∈ l, c ≠ '\r' ∧ c ≠ '\n'

instance (l : List Char) : Decidable (noNL l) := by
  unfold noNL
  infer_instance

theorem scanAny_cons (c : Char) (rest : List Char) (h1 : c ≠ '\r') (h2 : c ≠ '\n') :
    scanAny (c :: rest) =
      (c :: (scanAny rest).1, (scanAny rest).2.1, (scanAny rest).2.2) := by
  rcases rest with _ | ⟨c2, rest⟩ <;> simp [scanAny, h1, h2]

theorem scanAny_crlf (l rest : List Char) (h : noNL l) :
    scanAny (l ++ '\r' :: '\n' :: rest) = (l ++ ['\r', '\n'], Found.crlf, rest) := by
  induction l with
  | nil => simp [scanAny]
  | cons c l ih =>
      have hc := h c (List.mem_cons_self c l)
      have ih' := ih (fun x hx => h x (List.mem_cons_of_mem c hx))
      rw [List.cons_append, scanAny_cons c _ hc.1 hc.2, ih']
      simp

theorem scanAny_cr_end (l : List Char) (h : noNL l) :
    scanAny (l ++ ['\r']) = (l ++ ['\r'], Found.crlfSplit, []) := by
  induction l with
  | nil => simp [scanAny]
  | cons c l ih =>
      have hc := h c (List.mem_cons_self c l)
      have ih' := ih (fun x hx => h x (List.mem_cons_of_mem c hx))
      rw [List.cons_append, scanAny_cons c _ hc.1 hc.2, ih']

theorem streamReadline_crlf (l rest : List Char) (st : Status) (tail : ByteStream)
    (h : noNL l) (hr : rest ≠ []) :
    streamReadline ((l ++ '\r' :: '\n' :: rest, st) :: tail) =
      ⟨l ++ ['\r', '\n'], Found.crlf, Status.ok, (rest, st) :: tail⟩ := by
  simp [streamReadline, scanAny_crlf l rest h, hr]

theorem streamReadline_cr_end (l : List Char) (st : Status) (tail : ByteStream)
    (h : noNL l) :
    streamReadline ((l ++ ['\r'], st) :: tail) =
      ⟨l ++ ['\r'], Found.crlfSplit, st, tail⟩ := by
  simp [streamReadline, scanAny_cr_end l h]

theorem fetchLineLoop_crlf (fuel : Nat) (ctx : RespCtx) (l rest : List Char)
    (st : Status) (tail : ByteStream)
    (hl : ctx.lstate ≠ LState.crlfSplit)
    (hstream : ctx.stream = (l ++ '\r' :: '\n' :: rest, st) :: tail)
    (h : noNL l) (hr : rest ≠ [])
    (hlen : ctx.line.length + (l.length + 2) ≤ LINE_LIMIT) :
    fetchLineLoop (fuel + 1) ctx =
      some (Status.ok,
        { ctx with stream := (rest, st) :: tail, lstate := LState.ready,
                   line := ctx.line ++ l }) := by
  have hnottoolong : ¬(ctx.line.length + (l ++ ['\r', '\n']).length > LINE_LIMIT) := by
    simp only [List.length_append, List.length_cons, List.length_nil]
    omega
  simp only [fetchLineLoop, hl, if_false, hstream,
    streamReadline_crlf l rest st tail h hr]
  simp only [ne_eq, not_true_eq_false, if_false, hnottoolong,
    List.length_append]
  simp [List.take_left]
  omega

theorem fetchLineLoop_too_long (fuel : Nat) (ctx : RespCtx) (l rest : List Char)
    (st : Status) (tail : ByteStream)
    (hl : ctx.lstate ≠ LState.crlfSplit)
    (hstream : ctx.stream = (l ++ '\r' :: '\n' :: rest, st) :: tail)
    (h : noNL l) (hr : rest ≠ [])
    (hlen : ctx.line.length + (l.length + 2) > LINE_LIMIT) :
    fetchLineLoop (fuel + 1) ctx =
      some (Status.egeneral, { ctx with stream := (rest, st) :: tail }) := by
  have htoolong : ctx.line.length + (l ++ ['\r', '\n']).length > LINE_LIMIT := by
    simp only [List.length_append, List.length_cons, List.length_nil]
    omega
  simp only [fetchLineLoop, hl, if_false, hstream,
    streamReadline_crlf l rest st tail h hr]
  simp [htoolong]
  omega

theorem fetchLineLoop_cr_gap (fuel : Nat) (ctx : RespCtx) (l : List Char)
    (more : ByteStream)
    (hl : ctx.lstate ≠ LState.crlfSplit)
    (hstream : ctx.stream = (l ++ ['\r'], Status.ok) :: ([], Status.eagain) :: more)
    (h : noNL l)
    (hlen : ctx.line.length + (l.length + 1) ≤ LINE_LIMIT) :
    fetchLineLoop (fuel + 2) ctx =
      some (Status.eagain,
        { ctx with stream := ([], Status.eagain) :: more,
                   lstate := LState.crlfSplit, line := ctx.line ++ l }) := by
  have hnottoolong : ¬(ctx.line.length + (l ++ ['\r']).length > LINE_LIMIT) := by
    simp only [List.length_append, List.length_cons, List.length_nil]
    omega
  have hdrop : (l ++ ['\r']).dropLast = l := List.dropLast_concat
  simp only [fetchLineLoop, hl, if_false, hstream,
    streamReadline_cr_end l Status.ok (([], Status.eagain) :: more) h]
  simp only [ne_eq, not_true_eq_false, if_false, hnottoolong, hdrop]
  simp [fetchLineLoop, streamPeek]

theorem fetchLineLoop_resume_split (fuel : Nat) (ctx : RespCtx) (c : Char)
    (d : List Char) (st : Status) (tail : ByteStream)
    (hl : ctx.lstate = LState.crlfSplit)
    (hstream : ctx.stream = ((c :: d), st) :: tail) :
    fetchLineLoop (fuel + 1) ctx =
      some ((if tail = [] then st else Status.ok),
        { ctx with
            stream := if c = '\n' then (streamRead 1 (((c :: d), st) :: tail)).2.2
                      else ((c :: d), st) :: tail,
            lstate := LState.ready }) := by
  simp only [fetchLineLoop, hl, if_true, hstream, streamPeek]
  by_cases hc : c = '\n' <;> simp [hc, hstream]

theorem fetch_line_crlf_empty (fuel : Nat) (ctx : RespCtx) (l rest : List Char)
    (st : Status) (tail : ByteStream)
    (hl : ctx.lstate = LState.empty)
    (hstream : ctx.stream = (l ++ '\r' :: '\n' :: rest, st) :: tail)
    (h : noNL l) (hr : rest ≠ [])
    (hlen : ctx.line.length + (l.length + 2) ≤ LINE_LIMIT) :
    fetch_line (fuel + 1) ctx =
      some (Status.ok,
        { ctx with stream := (rest, st) :: tail, lstate := LState.ready,
                   line := ctx.line ++ l }) := by
  unfold fetch_line
  rw [if_neg (by simp [hl])]
  exact fetchLineLoop_crlf fuel ctx l rest st tail (by simp [hl]) hstream h hr hlen

theorem fetch_line_crlf_ready (fuel : Nat) (ctx : RespCtx) (l rest : List Char)
    (st : Status) (tail : ByteStream)
    (hl : ctx.lstate = LState.ready)
    (hstream : ctx.stream = (l ++ '\r' :: '\n' :: rest, st) :: tail)
    (h : noNL l) (hr : rest ≠ [])
    (hlen : l.length + 2 ≤ LINE_LIMIT) :
    fetch_line (fuel + 1) ctx =
      some (Status.ok,
        { ctx with stream := (rest, st) :: tail, lstate := LState.ready,
                   line := l }) := by
  unfold fetch_line
  rw [if_pos hl]
  show fetchLineLoop (fuel + 1) { ctx with lstate := LState.empty, line := [] } = _
  rw [fetchLineLoop_crlf fuel _ l rest st tail (by simp) (by simpa using hstream) h hr
    (by simpa using hlen)]
  simp

/-- The context right after the status line has been fetched from a
simple-bucket response. -/
def afterSline (first rest : List Char) (g1 g2 : Int) : RespCtx :=
  { stream := [(rest, Status.eof)], state := RState.headers,
    lstate := LState.ready, line := first, sl := none, headers := [],
    chunked := g1, bodyLeft := g2 }

theorem wait_sline_simple (w fuel : Nat) (first rest : List Char) (g1 g2 : Int)
    (h : noNL first) (hr : rest ≠ []) (hlen : first.length + 2 ≤ LINE_LIMIT) :
    wait_for_sline (w + 2) (fuel + 1)
        (serf_bucket_response_create (simpleStream (first ++ '\r' :: '\n' :: rest)) g1 g2) =
      some (Status.ok, afterSline first rest g1 g2) := by
  have hfetch := fetch_line_crlf_empty fuel
    (serf_bucket_response_create (simpleStream (first ++ '\r' :: '\n' :: rest)) g1 g2)
    first rest Status.eof [] rfl rfl h hr (by simpa [serf_bucket_response_create] using hlen)
  simp only [wait_for_sline, serf_bucket_response_create, reduceIte]
  simp only [run_machine, serf_bucket_response_create] at hfetch ⊢
  rw [hfetch]
  simp [wait_for_sline, afterSline, serf_bucket_response_create]

/-- Value of a decimal digit run, most significant first. -/
def decValue (l : List Char) : Int := l.foldl (fun a c => a * 10 + digitVal c) 0

/-- Modelled from the spec (status-line parsing, claim C3): for a first
line matching `HTTP/<digit>.<digit> <3 digits> …`, the result triple is
version = major*1000+minor (the digits at offsets 5 and 7), code = the
parsed decimal status code (the maximal digit run starting at offset 9),
and reason = the remainder of the line after the code and one space,
verbatim and without terminator. -/
def specStatusLine (l : List Char) : StatusLine :=
  { version := 1000 * digitVal (l.getD 5 'x') + digitVal (l.getD 7 'x')
    code := decValue ((l.drop 9).takeWhile Char.isDigit)
    reason :=
      match (l.drop 9).dropWhile Char.isDigit with
      | [] => []
      | c :: t => if c = ' ' then t else c :: t }

theorem digit_ne (c x : Char) (h : c.isDigit = true) (hx : x.isDigit = false) :
    c ≠ x := by
  intro he
  subst he
  simp [hx] at h

theorem digit_not_space (c : Char) (h : c.isDigit = true) : aprIsspace c = false := by
  by_contra hc
  have hc' : aprIsspace c = true := by
    revert hc
    cases aprIsspace c <;> simp
  simp only [aprIsspace, Bool.or_eq_true, decide_eq_true_eq] at hc'
  rcases hc' with ((((h1 | h1) | h1) | h1) | h1) | h1 <;>
    (subst h1; exact absurd h (by decide))

theorem digit_noNL (c : Char) (h : c.isDigit = true) : c ≠ '\r' ∧ c ≠ '\n' :=
  ⟨digit_ne c '\r' h (by decide), digit_ne c '\n' h (by decide)⟩

theorem parseDigits_eq (l : List Char) (acc : Int) :
    parseDigits acc l =
      ((l.takeWhile Char.isDigit).foldl (fun a c => a * 10 + digitVal c) acc,
       l.dropWhile Char.isDigit) := by
  induction l generalizing acc with
  | nil => simp [parseDigits]
  | cons c cs ih =>
      by_cases hc : c.isDigit = true
      · simp [parseDigits, hc, List.takeWhile_cons, List.dropWhile_cons, ih]
      · simp only [Bool.not_eq_true] at hc
        simp [parseDigits, hc, List.takeWhile_cons, List.dropWhile_cons]

theorem aprStrtoi64_digit (e1 : Char) (t : List Char) (hd : e1.isDigit = true)
    (hmax : decValue ((e1 :: t).takeWhile Char.isDigit) ≤ i64Max) :
    aprStrtoi64 (' ' :: e1 :: t) =
      (decValue ((e1 :: t).takeWhile Char.isDigit),
       (e1 :: t).dropWhile Char.isDigit, false) := by
  have hsp : aprIsspace ' ' = true := by decide
  have hns : aprIsspace e1 = false := digit_not_space e1 hd
  have hminus : ¬(e1 = '-') := digit_ne e1 '-' hd (by decide)
  have hplus : ¬(e1 = '+') := digit_ne e1 '+' hd (by decide)
  have hdw : (' ' :: e1 :: t).dropWhile aprIsspace = e1 :: t := by
    simp [List.dropWhile_cons, hsp, hns]
  have hval := parseDigits_eq (e1 :: t) 0
  simp only [aprStrtoi64, hdw, hminus, if_false, hplus, hval, decValue]
  rw [if_neg (by simpa [decValue] using not_lt.mpr hmax)]

/-- A status line of the shape the mask HTTP/#.# ###* accepts: the five
literal bytes, two version digits, the space and three code digits,
followed by arbitrary tail bytes. -/
def httpFirst (d1 d2 e1 e2 e3 : Char) (tl : List Char) : List Char :=
  'H' :: 'T' :: 'T' :: 'P' :: '/' :: d1 :: '.' :: d2 :: ' ' :: e1 :: e2 :: e3 :: tl

theorem checkmask_httpFirst (d1 d2 e1 e2 e3 : Char) (tl : List Char)
    (hd1 : d1.isDigit = true) (hd2 : d2.isDigit = true) (he1 : e1.isDigit = true)
    (he2 : e2.isDigit = true) (he3 : e3.isDigit = true) :
    checkmask (httpFirst d1 d2 e1 e2 e3 tl) httpMask = true := by
  have hm : httpMask = ['H', 'T', 'T', 'P', '/', '#', '.', '#', ' ', '#', '#', '#', '*'] := by
    rfl
  rw [hm]
  simp [httpFirst, checkmask, hd1, hd2, he1, he2, he3]
  cases tl <;> simp [checkmask]

theorem noNL_httpFirst (d1 d2 e1 e2 e3 : Char) (tl : List Char)
    (hd1 : d1.isDigit = true) (hd2 : d2.isDigit = true) (he1 : e1.isDigit = true)
    (he2 : e2.isDigit = true) (he3 : e3.isDigit = true) (htl : noNL tl) :
    noNL (httpFirst d1 d2 e1 e2 e3 tl) := by
  intro c hc
  simp only [httpFirst, List.mem_cons] at hc
  rcases hc with rfl | rfl | rfl | rfl | rfl | rfl | rfl | rfl | rfl | rfl | rfl | rfl | hc
  · exact ⟨by decide, by decide⟩
  · exact ⟨by decide, by decide⟩
  · exact ⟨by decide, by decide⟩
  · exact ⟨by decide, by decide⟩
  · exact ⟨by decide, by decide⟩
  · exact digit_noNL _ hd1
  · exact ⟨by decide, by decide⟩
  · exact digit_noNL _ hd2
  · exact ⟨by decide, by decide⟩
  · exact digit_noNL _ he1
  · exact digit_noNL _ he2
  · exact digit_noNL _ he3
  · exact htl c hc

/-- C3: for simple-bucket inputs, get_status succeeds exactly when the
first complete line matches `HTTP/<digit>.<digit> <3 digits> …`, and then
returns the triple of the specification (version = major*1000+minor, the
parsed decimal status code, and the remainder after the code and one
space, verbatim); a non-matching first line fails — with the generic
APR_EGENERAL in place of the claim's BAD_RESPONSE code. -/
theorem C3_status_line (w fuel : Nat) (d1 d2 e1 e2 e3 : Char)
    (tl rest bad brest : List Char) (g1 g2 g3 g4 : Int)
    (hd1 : d1.isDigit = true) (hd2 : d2.isDigit = true)
    (he1 : e1.isDigit = true) (he2 : e2.isDigit = true) (he3 : e3.isDigit = true)
    (htl : noNL tl) (hrest : rest ≠ []) (hlen : tl.length + 14 ≤ LINE_LIMIT)
    (hmax : decValue ((e1 :: e2 :: e3 :: tl).takeWhile Char.isDigit) ≤ i64Max)
    (hws : ∀ c t', (e1 :: e2 :: e3 :: tl).dropWhile Char.isDigit = c :: t' →
        aprIsspace c = true → c = ' ')
    (hbad : noNL bad) (hbrest : brest ≠ []) (hblen : bad.length + 2 ≤ LINE_LIMIT)
    (hbmask : checkmask bad httpMask = false) :
    (serf_bucket_response_status (w + 2) (fuel + 1)
        (serf_bucket_response_create
          (simpleStream (httpFirst d1 d2 e1 e2 e3 tl ++ '\r' :: '\n' :: rest)) g1 g2)).map
        (fun r => (r.1, r.2.1))
      = some (Status.ok, some (specStatusLine (httpFirst d1 d2 e1 e2 e3 tl)))
    ∧ (serf_bucket_response_status (w + 2) (fuel + 1)
        (serf_bucket_response_create (simpleStream (bad ++ '\r' :: '\n' :: brest)) g3 g4)).map
        (fun r => (r.1, r.2.1))
      = some (Status.egeneral, none) := by
  constructor
  · have hfNL : noNL (httpFirst d1 d2 e1 e2 e3 tl) :=
      noNL_httpFirst d1 d2 e1 e2 e3 tl hd1 hd2 he1 he2 he3 htl
    have hflen : (httpFirst d1 d2 e1 e2 e3 tl).length + 2 ≤ LINE_LIMIT := by
      simp only [httpFirst, List.length_cons]
      omega
    have hwl := wait_sline_simple w fuel (httpFirst d1 d2 e1 e2 e3 tl) rest g1 g2
      hfNL hrest hflen
    have hcm := checkmask_httpFirst d1 d2 e1 e2 e3 tl hd1 hd2 he1 he2 he3
    have hdrop8 : (httpFirst d1 d2 e1 e2 e3 tl).drop 8 = ' ' :: e1 :: e2 :: e3 :: tl := by
      simp [httpFirst]
    have hdrop9 : (httpFirst d1 d2 e1 e2 e3 tl).drop 9 = e1 :: e2 :: e3 :: tl := by
      simp [httpFirst]
    have hstr := aprStrtoi64_digit e1 (e2 :: e3 :: tl) he1 hmax
    unfold serf_bucket_response_status
    rw [if_pos (by simp [serf_bucket_response_create])]
    rw [hwl]
    simp only [afterSline, ne_eq, not_true_eq_false, if_false, hcm, if_true,
      hdrop8, hstr, Option.map_some]
    simp only [specStatusLine, hdrop9]
    rcases hsp : (e1 :: e2 :: e3 :: tl).dropWhile Char.isDigit with _ | ⟨c, t'⟩
    · simp
    · by_cases hc : aprIsspace c = true
      · have hce := hws c t' hsp hc
        subst hce
        simp [hc]
      · simp only [Bool.not_eq_true] at hc
        have hcs : ¬(c = ' ') := by
          intro he
          subst he
          simp [aprIsspace] at hc
        simp [hc, hcs]
  · have hwl := wait_sline_simple w fuel bad brest g3 g4 hbad hbrest hblen
    unfold serf_bucket_response_status
    rw [if_pos (by simp [serf_bucket_response_create])]
    rw [hwl]
    simp only [afterSline, ne_eq, not_true_eq_false, if_false, hbmask,
      Option.map_some]
    simp

/-- C3 counterexample: on a first line that does not match the pattern
(`XTTP/…`), get_status fails with the generic APR_EGENERAL — which is a
different error code from BAD_RESPONSE — so the claim as stated is false
at this input. -/
theorem C3_counterexample :
    (serf_bucket_response_status 2 1
        (serf_bucket_response_create
          (simpleStream ("XTTP/1.1 200 OK\r\nContent-Length: 7\r\n\r\nabc1234".toList))
          0 0)).map (fun r => (r.1, r.2.1))
      = some (Status.egeneral, none)
    ∧ Status.egeneral ≠ Status.badResponse := by
  constructor
  · decide
  · decide

/-- C3 witness: the theorem applied to the concrete response
"HTTP/1.1 200 OK" (matching) and "XTTP/1.1 200 OK" (not matching). -/
theorem C3_status_line_witness :
    (serf_bucket_response_status (0 + 2) (0 + 1)
        (serf_bucket_response_create
          (simpleStream (httpFirst '1' '1' '2' '0' '0' " OK".toList ++
            '\r' :: '\n' :: "Content-Length: 7\r\n\r\nabc1234".toList)) 0 0)).map
        (fun r => (r.1, r.2.1))
      = some (Status.ok, some (specStatusLine (httpFirst '1' '1' '2' '0' '0' " OK".toList)))
    ∧ (serf_bucket_response_status (0 + 2) (0 + 1)
        (serf_bucket_response_create
          (simpleStream ("XTTP/1.1 200 OK".toList ++ '\r' :: '\n' ::
            "Content-Length: 7\r\n\r\nabc1234".toList)) 0 0)).map
        (fun r => (r.1, r.2.1))
      = some (Status.egeneral, none) := by
  refine C3_status_line 0 0 '1' '1' '2' '0' '0' " OK".toList
    "Content-Length: 7\r\n\r\nabc1234".toList "XTTP/1.1 200 OK".toList
    "Content-Length: 7\r\n\r\nabc1234".toList 0 0 0 0
    (by decide) (by decide) (by decide) (by decide) (by decide)
    (by decide) (by decide) (by decide) (by decide) ?_ (by decide)
    (by decide) (by decide) (by decide)
  intro c t' h _
  have hv : (('2' : Char) :: '0' :: '0' :: " OK".toList).dropWhile Char.isDigit
      = [' ', 'O', 'K'] := by decide
  rw [hv] at h
  injection h with h1 _
  exact h1.symm

theorem fetch_line_too_long_empty (fuel : Nat) (ctx : RespCtx) (l rest : List Char)
    (st : Status) (tail : ByteStream)
    (hl : ctx.lstate = LState.empty)
    (hstream : ctx.stream = (l ++ '\r' :: '\n' :: rest, st) :: tail)
    (h : noNL l) (hr : rest ≠ [])
    (hlen : ctx.line.length + (l.length + 2) > LINE_LIMIT) :
    fetch_line (fuel + 1) ctx =
      some (Status.egeneral, { ctx with stream := (rest, st) :: tail }) := by
  unfold fetch_line
  rw [if_neg (by simp [hl])]
  exact fetchLineLoop_too_long fuel ctx l rest st tail (by simp [hl]) hstream h hr hlen

theorem fetch_line_too_long_ready (fuel : Nat) (ctx : RespCtx) (l rest : List Char)
    (st : Status) (tail : ByteStream)
    (hl : ctx.lstate = LState.ready)
    (hstream : ctx.stream = (l ++ '\r' :: '\n' :: rest, st) :: tail)
    (h : noNL l) (hr : rest ≠ [])
    (hlen : l.length + 2 > LINE_LIMIT) :
    fetch_line (fuel + 1) ctx =
      some (Status.egeneral,
        { ctx with stream := (rest, st) :: tail, lstate := LState.empty,
                   line := [] }) := by
  unfold fetch_line
  rw [if_pos hl]
  show fetchLineLoop (fuel + 1) { ctx with lstate := LState.empty, line := [] } = _
  rw [fetchLineLoop_too_long fuel _ l rest st tail (by simp) (by simpa using hstream)
    h hr (by simpa using hlen)]

/-- Driving get_status over a first line too long for the 8000-byte line
buffer fails with APR_EGENERAL. -/
theorem respStatus_too_long (w fuel : Nat) (long rest : List Char) (g1 g2 : Int)
    (h : noNL long) (hr : rest ≠ []) (hlen : long.length + 2 > LINE_LIMIT) :
    serf_bucket_response_status (w + 2) (fuel + 1)
        (serf_bucket_response_create (simpleStream (long ++ '\r' :: '\n' :: rest)) g1 g2) =
      some (Status.egeneral, none,
        { serf_bucket_response_create (simpleStream (long ++ '\r' :: '\n' :: rest)) g1 g2 with
            stream := [(rest, Status.eof)] }) := by
  have hfetch := fetch_line_too_long_empty fuel
    (serf_bucket_response_create (simpleStream (long ++ '\r' :: '\n' :: rest)) g1 g2)
    long rest Status.eof [] rfl rfl h hr
    (by simpa [serf_bucket_response_create] using hlen)
  unfold serf_bucket_response_status
  rw [if_pos (by simp [serf_bucket_response_create])]
  simp only [wait_for_sline, serf_bucket_response_create, reduceIte]
  simp only [run_machine, serf_bucket_response_create] at hfetch ⊢
  rw [hfetch]
  simp [serf_bucket_response_create]

theorem run_machine_sline (fuel : Nat) (ctx ctx' : RespCtx)
    (hst : ctx.state = RState.statusLine)
    (h : fetch_line fuel ctx = some (Status.ok, ctx')) :
    run_machine fuel ctx = some (Status.ok, { ctx' with state := RState.headers }) := by
  unfold run_machine
  rw [hst]
  rw [h]
  simp

theorem run_machine_sline_err (fuel : Nat) (ctx ctx' : RespCtx) (st : Status)
    (hst : ctx.state = RState.statusLine)
    (h : fetch_line fuel ctx = some (st, ctx')) (hne : st ≠ Status.ok) :
    run_machine fuel ctx = some (st, ctx') := by
  unfold run_machine
  rw [hst]
  rw [h]
  simp [hne]

theorem run_machine_headers (fuel : Nat) (ctx : RespCtx)
    (hst : ctx.state = RState.headers) :
    run_machine fuel ctx = headersLoop fuel ctx := by
  unfold run_machine
  rw [hst]

theorem wait_for_body_step (w fuel : Nat) (ctx ctx' : RespCtx)
    (hst : ctx.state ≠ RState.body)
    (h : run_machine fuel ctx = some (Status.ok, ctx')) :
    wait_for_body (w + 1) fuel ctx = wait_for_body w fuel ctx' := by
  show (if ctx.state ≠ RState.body then
      match run_machine fuel ctx with
      | none => none
      | some (st, c) =>
          if st = Status.ok then wait_for_body w fuel c
          else some (st, c)
    else some (Status.ok, ctx)) = wait_for_body w fuel ctx'
  rw [if_pos hst, h]
  simp

theorem wait_for_body_stop (w fuel : Nat) (ctx ctx' : RespCtx) (st : Status)
    (hst : ctx.state ≠ RState.body)
    (h : run_machine fuel ctx = some (st, ctx')) (hne : st ≠ Status.ok) :
    wait_for_body (w + 1) fuel ctx = some (st, ctx') := by
  unfold wait_for_body
  rw [if_pos hst, h]
  simp [hne]

theorem wait_for_body_done (w fuel : Nat) (ctx : RespCtx)
    (hst : ctx.state = RState.body) :
    wait_for_body (w + 1) fuel ctx = some (Status.ok, ctx) := by
  unfold wait_for_body
  simp [hst]

theorem headersLoop_err (fuel : Nat) (ctx ctx' : RespCtx) (st : Status)
    (h : fetch_line (fuel + 1) ctx = some (st, ctx')) (hne : st ≠ Status.ok) :
    headersLoop (fuel + 1) ctx = some (st, ctx') := by
  unfold headersLoop
  rw [h]
  simp [hne]

theorem headersLoop_nocolon (fuel : Nat) (ctx ctx' : RespCtx)
    (h : fetch_line (fuel + 1) ctx = some (Status.ok, ctx'))
    (hready : ctx'.lstate = LState.ready) (hne : ctx'.line ≠ [])
    (hidx : ctx'.line.findIdx? (fun c => c = ':') = none) :
    headersLoop (fuel + 1) ctx = some (Status.egeneral, ctx') := by
  unfold headersLoop
  rw [h]
  simp [hready, hne, hidx]

theorem headersLoop_cons (fuel : Nat) (ctx ctx' : RespCtx) (i : Nat)
    (h : fetch_line (fuel + 1) ctx = some (Status.ok, ctx'))
    (hready : ctx'.lstate = LState.ready) (hne : ctx'.line ≠ [])
    (hidx : ctx'.line.findIdx? (fun c => c = ':') = some i) :
    headersLoop (fuel + 1) ctx =
      headersLoop fuel
        { ctx' with
          headers :=
            metaSet (ctx'.line.take i) ((ctx'.line.drop (i + 1)).dropWhile aprIsspace)
              ctx'.headers } := by
  conv_lhs => unfold headersLoop
  rw [h]
  simp [hready, hne, hidx]

theorem headersLoop_blank (fuel : Nat) (ctx ctx' : RespCtx)
    (h : fetch_line (fuel + 1) ctx = some (Status.ok, ctx'))
    (hline : ctx'.line = []) :
    headersLoop (fuel + 1) ctx = afterHeaders ctx' := by
  unfold headersLoop
  rw [h]
  simp [hline]

theorem wait_body_after_sline (w fuel : Nat) (first rest : List Char) (g1 g2 : Int)
    (h : noNL first) (hr : rest ≠ []) (hlen : first.length + 2 ≤ LINE_LIMIT) :
    wait_for_body (w + 1) (fuel + 1)
        (serf_bucket_response_create (simpleStream (first ++ '\r' :: '\n' :: rest)) g1 g2) =
      wait_for_body w (fuel + 1) (afterSline first rest g1 g2) := by
  apply wait_for_body_step
  · simp [serf_bucket_response_create]
  · have h1 := fetch_line_crlf_empty fuel
      (serf_bucket_response_create (simpleStream (first ++ '\r' :: '\n' :: rest)) g1 g2)
      first rest Status.eof [] rfl rfl h hr
      (by simpa [serf_bucket_response_create] using hlen)
    rw [run_machine_sline (fuel + 1) _ _ rfl h1]
    simp [afterSline, serf_bucket_response_create]

/-- C5 (amended): a status or header line whose content exceeds the
8000-byte line buffer makes the response parser fail — with the generic
APR_EGENERAL error in place of the claim's LINE_TOO_LONG code. -/
theorem C5_line_too_long (w fuel : Nat) (long rest rest2 : List Char)
    (g1 g2 g3 g4 : Int)
    (h : noNL long) (hr : rest ≠ []) (hr2 : rest2 ≠ [])
    (hlen : long.length > LINE_LIMIT) :
    (serf_bucket_response_status (w + 2) (fuel + 1)
        (serf_bucket_response_create (simpleStream (long ++ '\r' :: '\n' :: rest)) g1 g2)).map
        (fun r => (r.1, r.2.1)) = some (Status.egeneral, none)
    ∧ (wait_for_body (w + 2) (fuel + 1)
        (serf_bucket_response_create
          (simpleStream ("HTTP/1.1 200 OK".toList ++ '\r' :: '\n' ::
            (long ++ '\r' :: '\n' :: rest2))) g3 g4)).map (fun r => r.1)
      = some Status.egeneral := by
  constructor
  · rw [respStatus_too_long w fuel long rest g1 g2 h hr (by omega)]
    rfl
  · rw [show w + 2 = (w + 1) + 1 from rfl,
      wait_body_after_sline (w + 1) fuel "HTTP/1.1 200 OK".toList
        (long ++ '\r' :: '\n' :: rest2) g3 g4 (by decide) (by simp) (by decide)]
    rw [wait_for_body_stop w (fuel + 1) _ _ Status.egeneral (by simp [afterSline])
      (by
        rw [run_machine_headers (fuel + 1) _ (by simp [afterSline])]
        exact headersLoop_err fuel _ _ Status.egeneral
          (fetch_line_too_long_ready fuel _ long rest2 Status.eof []
            (by simp [afterSline]) (by simp [afterSline]) h hr2 (by omega))
          (by decide))
      (by decide)]
    rfl

theorem noNL_replicate_a (n : Nat) : noNL (List.replicate n 'a') := by
  intro c hc
  have hceq := List.eq_of_mem_replicate hc
  subst hceq
  exact ⟨by decide, by decide⟩

/-- C5 counterexample: an 8001-byte status line makes the parser fail with
the generic APR_EGENERAL, which is a different error code from
LINE_TOO_LONG, so the claim as stated is false at this input. -/
theorem C5_counterexample :
    (serf_bucket_response_status (0 + 2) (0 + 1)
        (serf_bucket_response_create
          (simpleStream (List.replicate 8001 'a' ++ '\r' :: '\n' :: ['x'])) 0 0)).map
        (fun r => (r.1, r.2.1)) = some (Status.egeneral, none)
    ∧ Status.egeneral ≠ Status.lineTooLong := by
  constructor
  · rw [respStatus_too_long 0 0 (List.replicate 8001 'a') ['x'] 0 0
      (noNL_replicate_a 8001) (by simp) (by rw [List.length_replicate]; decide)]
    rfl
  · decide

/-- C5 witness: the theorem applied at an 8001-byte line, both as the
status line and as a header line. -/
theorem C5_line_too_long_witness :
    (serf_bucket_response_status (0 + 2) (0 + 1)
        (serf_bucket_response_create
          (simpleStream (List.replicate 8001 'a' ++ '\r' :: '\n' :: ['x'])) 0 0)).map
        (fun r => (r.1, r.2.1)) = some (Status.egeneral, none)
    ∧ (wait_for_body (0 + 2) (0 + 1)
        (serf_bucket_response_create
          (simpleStream ("HTTP/1.1 200 OK".toList ++ '\r' :: '\n' ::
            (List.replicate 8001 'a' ++ '\r' :: '\n' :: ['y']))) 0 0)).map (fun r => r.1)
      = some Status.egeneral :=
  C5_line_too_long 0 0 (List.replicate 8001 'a') ['x'] ['y'] 0 0 0 0
    (noNL_replicate_a 8001) (by simp) (by simp) (by rw [List.length_replicate]; decide)

theorem findIdx_colon_none (l : List Char) (h : (':' : Char) ∉ l) :
    l.findIdx? (fun c => c = ':') = none := by
  rw [List.findIdx?_eq_none_iff]
  intro x hx
  simp only [decide_eq_false_iff_not]
  intro he
  subst he
  exact h hx

theorem findIdx_colon_append (name rawv : List Char) (h : (':' : Char) ∉ name) :
    (name ++ ':' :: rawv).findIdx? (fun c => c = ':') = some name.length := by
  induction name with
  | nil => simp [List.findIdx?_cons]
  | cons c cs ih =>
      have hc : ¬(c = ':') := fun he => h (he ▸ List.mem_cons_self c cs)
      have ih' := ih (fun hx => h (List.mem_cons_of_mem c hx))
      simp [List.findIdx?_cons, hc, ih']

theorem afterHeaders_frame (ctx : RespCtx) :
    ∃ st c, afterHeaders ctx = some (st, c) ∧ c.headers = ctx.headers ∧
      (st = Status.ok ∧ c.state = RState.body ∨ st ≠ Status.ok) := by
  rcases hm : metaGet "Content-Length".toList ctx.headers with _ | v
  · refine ⟨Status.ok, { ctx with state := RState.body }, ?_, rfl, Or.inl ⟨rfl, rfl⟩⟩
    unfold afterHeaders
    rw [hm]
  · by_cases he : (aprStrtoi64 v).2.2 = true
    · refine ⟨Status.erange, { ctx with chunked := 0, bodyLeft := (aprStrtoi64 v).1 }, ?_,
        rfl, Or.inr (by decide)⟩
      unfold afterHeaders
      rw [hm]
      simp [he]
    · refine ⟨Status.ok,
        { ctx with state := RState.body, chunked := 0, bodyLeft := (aprStrtoi64 v).1 },
        ?_, rfl, Or.inl ⟨rfl, rfl⟩⟩
      unfold afterHeaders
      rw [hm]
      simp [he]

theorem wait_after_headers_end (w fuel : Nat) (ctx ctx3 : RespCtx)
    (hstate : ctx.state = RState.headers)
    (hrm : run_machine fuel ctx = afterHeaders ctx3) :
    (wait_for_body (w + 2) fuel ctx).map (fun r => r.2.headers) = some ctx3.headers := by
  obtain ⟨st, c, hAH, hHead, hOr⟩ := afterHeaders_frame ctx3
  rcases hOr with ⟨hst, hcbody⟩ | hst
  · subst hst
    rw [show w + 2 = (w + 1) + 1 from rfl,
      wait_for_body_step (w + 1) fuel ctx c (by simp [hstate]) (by rw [hrm, hAH]),
      wait_for_body_done w fuel c hcbody]
    simp [hHead]
  · rw [show w + 2 = (w + 1) + 1 from rfl,
      wait_for_body_stop (w + 1) fuel ctx c st (by simp [hstate]) (by rw [hrm, hAH]) hst]
    simp [hHead]

/-- A response context in the HEADERS state with a completed line and a
partially filled header map. -/
def midCtx (line2 rest2 : List Char) (hs : List (List Char × List Char))
    (g1 g2 : Int) : RespCtx :=
  { stream := [(rest2, Status.eof)], state := RState.headers,
    lstate := LState.ready, line := line2, sl := none, headers := hs,
    chunked := g1, bodyLeft := g2 }

/-- C7: a header line without a colon makes the response parser fail —
with the generic APR_EGENERAL in place of the claim's BAD_HEADER code —
while a header line with a colon is split at the first colon: the name is
the bytes before it and the value the bytes after it with leading
whitespace stripped (an empty value is legal, witnessed below with an
empty-valued header). -/
theorem C7_header_split (w fuel : Nat) (name rawv hnc body body2 : List Char)
    (g1 g2 g3 g4 : Int)
    (hnameNL : noNL name) (hrawNL : noNL rawv) (hcolon : (':' : Char) ∉ name)
    (hlen : name.length + rawv.length + 3 ≤ LINE_LIMIT) (hbody : body ≠ [])
    (hncNL : noNL hnc) (hnccol : (':' : Char) ∉ hnc) (hnc_ne : hnc ≠ [])
    (hnclen : hnc.length + 2 ≤ LINE_LIMIT) (hbody2 : body2 ≠ []) :
    (wait_for_body (w + 3) (fuel + 2)
        (serf_bucket_response_create
          (simpleStream ("HTTP/1.1 200 OK".toList ++ '\r' :: '\n' ::
            (hnc ++ '\r' :: '\n' :: body2))) g3 g4)).map (fun r => r.1)
      = some Status.egeneral
    ∧ (wait_for_body (w + 3) (fuel + 2)
        (serf_bucket_response_create
          (simpleStream ("HTTP/1.1 200 OK".toList ++ '\r' :: '\n' ::
            ((name ++ ':' :: rawv) ++ '\r' :: '\n' :: ('\r' :: '\n' :: body)))) g1 g2)).map
        (fun r => r.2.headers)
      = some (metaSet name (rawv.dropWhile aprIsspace) []) := by
  constructor
  · rw [show w + 3 = (w + 2) + 1 from rfl, show fuel + 2 = (fuel + 1) + 1 from rfl,
      wait_body_after_sline (w + 2) (fuel + 1) "HTTP/1.1 200 OK".toList
        (hnc ++ '\r' :: '\n' :: body2) g3 g4 (by decide) (by simp) (by decide)]
    have hfetchNC := fetch_line_crlf_ready (fuel + 1)
      (afterSline "HTTP/1.1 200 OK".toList (hnc ++ '\r' :: '\n' :: body2) g3 g4)
      hnc body2 Status.eof [] rfl rfl hncNL hbody2 (by omega)
    have hrm := (run_machine_headers ((fuel + 1) + 1)
        (afterSline "HTTP/1.1 200 OK".toList (hnc ++ '\r' :: '\n' :: body2) g3 g4)
        rfl).trans
      (headersLoop_nocolon (fuel + 1) _ _ hfetchNC rfl (by simpa using hnc_ne)
        (findIdx_colon_none hnc hnccol))
    rw [show w + 2 = (w + 1) + 1 from rfl,
      wait_for_body_stop (w + 1) ((fuel + 1) + 1) _ _ Status.egeneral
        (by simp [afterSline]) hrm (by decide)]
    rfl
  · have hH : noNL (name ++ ':' :: rawv) := by
      intro c hc
      rcases List.mem_append.mp hc with hc | hc
      · exact hnameNL c hc
      · rcases List.mem_cons.mp hc with rfl | hc
        · exact ⟨by decide, by decide⟩
        · exact hrawNL c hc
    rw [show w + 3 = (w + 2) + 1 from rfl, show fuel + 2 = (fuel + 1) + 1 from rfl,
      wait_body_after_sline (w + 2) (fuel + 1) "HTTP/1.1 200 OK".toList
        ((name ++ ':' :: rawv) ++ '\r' :: '\n' :: ('\r' :: '\n' :: body)) g1 g2
        (by decide) (by simp) (by decide)]
    have hfetchH : fetch_line ((fuel + 1) + 1)
        (afterSline "HTTP/1.1 200 OK".toList
          ((name ++ ':' :: rawv) ++ '\r' :: '\n' :: ('\r' :: '\n' :: body)) g1 g2) =
        some (Status.ok, afterSline (name ++ ':' :: rawv) ('\r' :: '\n' :: body) g1 g2) := by
      rw [fetch_line_crlf_ready (fuel + 1) _ (name ++ ':' :: rawv) ('\r' :: '\n' :: body)
        Status.eof [] rfl rfl hH (by simp)
        (by simp only [List.length_append, List.length_cons]; omega)]
      simp [afterSline]
    have hdrop : (name ++ ':' :: rawv).drop (name.length + 1) = rawv := by
      rw [← List.drop_drop 1 name.length, List.drop_left]
      rfl
    have hcons : headersLoop ((fuel + 1) + 1)
        (afterSline "HTTP/1.1 200 OK".toList
          ((name ++ ':' :: rawv) ++ '\r' :: '\n' :: ('\r' :: '\n' :: body)) g1 g2) =
        headersLoop (fuel + 1)
          (midCtx (name ++ ':' :: rawv) ('\r' :: '\n' :: body)
            (metaSet name (rawv.dropWhile aprIsspace) []) g1 g2) := by
      rw [headersLoop_cons (fuel + 1) _ _ name.length hfetchH rfl (by simp [afterSline])
        (findIdx_colon_append name rawv hcolon)]
      simp [afterSline, midCtx, List.take_left, hdrop]
    have hfetchB : fetch_line (fuel + 1)
        (midCtx (name ++ ':' :: rawv) ('\r' :: '\n' :: body)
          (metaSet name (rawv.dropWhile aprIsspace) []) g1 g2) =
        some (Status.ok,
          midCtx [] body (metaSet name (rawv.dropWhile aprIsspace) []) g1 g2) := by
      rw [fetch_line_crlf_ready fuel _ [] body Status.eof [] rfl (by simp [midCtx])
        (by intro c hc; simp at hc) hbody (by decide)]
      simp [midCtx]
    have hblank := headersLoop_blank fuel _ _ hfetchB rfl
    have hrm := (run_machine_headers ((fuel + 1) + 1)
        (afterSline "HTTP/1.1 200 OK".toList
          ((name ++ ':' :: rawv) ++ '\r' :: '\n' :: ('\r' :: '\n' :: body)) g1 g2)
        rfl).trans (hcons.trans hblank)
    rw [wait_after_headers_end w ((fuel + 1) + 1) _ _ rfl hrm]
    simp [midCtx]

/-- C7 counterexample: a header line without a colon makes the parser
fail with the generic APR_EGENERAL — a different error code from
BAD_HEADER — so the claim as stated is false at this input. -/
theorem C7_counterexample :
    (wait_for_body 4 40
        (serf_bucket_response_create
          (simpleStream ("HTTP/1.1 200 OK\r\nBadHeaderNoColon\r\n\r\nabc1234".toList)) 0 0)).map
        (fun r => r.1) = some Status.egeneral
    ∧ Status.egeneral ≠ Status.badHeader := by
  constructor
  · decide
  · decide

/-- C7 witness: the theorem applied to the colon-less header line
"BadHeaderNoColon" and to the header "Allow: " whose value is empty after
stripping the leading whitespace. -/
theorem C7_header_split_witness :
    (wait_for_body (0 + 3) (0 + 2)
        (serf_bucket_response_create
          (simpleStream ("HTTP/1.1 200 OK".toList ++ '\r' :: '\n' ::
            ("BadHeaderNoColon".toList ++ '\r' :: '\n' :: "xyz".toList))) 0 0)).map
        (fun r => r.1)
      = some Status.egeneral
    ∧ (wait_for_body (0 + 3) (0 + 2)
        (serf_bucket_response_create
          (simpleStream ("HTTP/1.1 200 OK".toList ++ '\r' :: '\n' ::
            (("Allow".toList ++ ':' :: " ".toList) ++ '\r' :: '\n' ::
              ('\r' :: '\n' :: "abc1234".toList)))) 0 0)).map
        (fun r => r.2.headers)
      = some (metaSet "Allow".toList (" ".toList.dropWhile aprIsspace) []) :=
  C7_header_split 0 0 "Allow".toList " ".toList "BadHeaderNoColon".toList
    "abc1234".toList "xyz".toList 0 0 0 0
    (by decide) (by decide) (by decide) (by decide) (by decide)
    (by decide) (by decide) (by decide) (by decide) (by decide)

/-- C1: on the repository's own truncation test input
(test_response_body_too_small_cl: Content-Length 100 but only 60 body
bytes) serf_response_read returns the 60 bytes with the stream's APR_EOF
passed through unchanged — not SERF_ERROR_TRUNCATED_HTTP_RESPONSE as the
claim and the test require. -/
theorem C1_truncated_eof :
    (serf_response_read 4 20 allAvail
        (serf_bucket_response_create
          (simpleStream
            (("HTTP/1.1 200 OK\r\nContent-Type: text/plain\r\nContent-Length: 100\r\n\r\n"
              ++ "123456789012345678901234567890123456789012345678901234567890").toList))
          7 7)).map (fun r => (r.1, r.2.1))
      = some (Status.eof,
          "123456789012345678901234567890123456789012345678901234567890".toList)
    ∧ Status.eof ≠ Status.truncatedHttpResponse := by
  constructor
  · decide
  · decide

/-- C2: the trunk run_machine never inspects the Transfer-Encoding
header.  On the chunked test input (test_response_bucket_chunked_read)
the framing fields `chunked` and `body_left` keep whatever values the
uninitialized allocation gave them, for every such pair of values; and
with a large leftover body_left the body read surfaces the raw
chunk-encoded bytes instead of the dechunked "abc1234" the test
requires — no chunked framing is ever selected. -/
theorem C2_no_chunked_framing :
    (∀ g1 g2 : Int,
      (wait_for_body (0 + 3) (0 + 2)
          (serf_bucket_response_create
            (simpleStream ("HTTP/1.1 200 OK".toList ++ '\r' :: '\n' ::
              (("Transfer-Encoding".toList ++ ':' :: " chunked".toList) ++ '\r' :: '\n' ::
                ('\r' :: '\n' ::
                  "3\r\nabc\r\n4\r\n1234\r\n0\r\nFooter: value\r\n\r\n".toList)))) g1 g2)).map
          (fun r => (r.2.chunked, r.2.bodyLeft))
        = some (g1, g2))
    ∧ (serf_response_read 4 20 allAvail
        (serf_bucket_response_create
          (simpleStream
            ("HTTP/1.1 200 OK\r\nTransfer-Encoding: chunked\r\n\r\n3\r\nabc\r\n4\r\n1234\r\n0\r\nFooter: value\r\n\r\n".toList))
          7 (2 ^ 32))).map (fun r => (r.1, r.2.1))
      = some (Status.eof, "3\r\nabc\r\n4\r\n1234\r\n0\r\nFooter: value\r\n\r\n".toList) := by
  constructor
  · intro g1 g2
    rw [show (0 : Nat) + 3 = (0 + 2) + 1 from rfl, show (0 : Nat) + 2 = (0 + 1) + 1 from rfl,
      wait_body_after_sline (0 + 2) (0 + 1) "HTTP/1.1 200 OK".toList
        (("Transfer-Encoding".toList ++ ':' :: " chunked".toList) ++ '\r' :: '\n' ::
          ('\r' :: '\n' :: "3\r\nabc\r\n4\r\n1234\r\n0\r\nFooter: value\r\n\r\n".toList))
        g1 g2 (by decide) (by simp) (by decide)]
    have hfetchH : fetch_line ((0 + 1) + 1)
        (afterSline "HTTP/1.1 200 OK".toList
          (("Transfer-Encoding".toList ++ ':' :: " chunked".toList) ++ '\r' :: '\n' ::
            ('\r' :: '\n' :: "3\r\nabc\r\n4\r\n1234\r\n0\r\nFooter: value\r\n\r\n".toList))
          g1 g2) =
        some (Status.ok,
          afterSline ("Transfer-Encoding".toList ++ ':' :: " chunked".toList)
            ('\r' :: '\n' :: "3\r\nabc\r\n4\r\n1234\r\n0\r\nFooter: value\r\n\r\n".toList)
            g1 g2) := by
      rw [fetch_line_crlf_ready (0 + 1) _
        ("Transfer-Encoding".toList ++ ':' :: " chunked".toList)
        ('\r' :: '\n' :: "3\r\nabc\r\n4\r\n1234\r\n0\r\nFooter: value\r\n\r\n".toList)
        Status.eof [] rfl rfl (by decide) (by simp) (by decide)]
      simp [afterSline]
    have hcons : headersLoop ((0 + 1) + 1)
        (afterSline "HTTP/1.1 200 OK".toList
          (("Transfer-Encoding".toList ++ ':' :: " chunked".toList) ++ '\r' :: '\n' ::
            ('\r' :: '\n' :: "3\r\nabc\r\n4\r\n1234\r\n0\r\nFooter: value\r\n\r\n".toList))
          g1 g2) =
        headersLoop (0 + 1)
          (midCtx ("Transfer-Encoding".toList ++ ':' :: " chunked".toList)
            ('\r' :: '\n' :: "3\r\nabc\r\n4\r\n1234\r\n0\r\nFooter: value\r\n\r\n".toList)
            (metaSet "Transfer-Encoding".toList
              (" chunked".toList.dropWhile aprIsspace) []) g1 g2) := by
      rw [headersLoop_cons (0 + 1) _ _ ("Transfer-Encoding".toList.length) hfetchH rfl
        (by simp [afterSline])
        (findIdx_colon_append "Transfer-Encoding".toList " chunked".toList (by decide))]
      have hdropTE : ("Transfer-Encoding".toList ++ ':' :: " chunked".toList).drop
          ("Transfer-Encoding".toList.length + 1) = " chunked".toList := by
        rw [← List.drop_drop 1 "Transfer-Encoding".toList.length, List.drop_left]
        rfl
      simp [afterSline, midCtx, List.take_left, hdropTE]
    have hfetchB : fetch_line (0 + 1)
        (midCtx ("Transfer-Encoding".toList ++ ':' :: " chunked".toList)
          ('\r' :: '\n' :: "3\r\nabc\r\n4\r\n1234\r\n0\r\nFooter: value\r\n\r\n".toList)
          (metaSet "Transfer-Encoding".toList
            (" chunked".toList.dropWhile aprIsspace) []) g1 g2) =
        some (Status.ok,
          midCtx [] "3\r\nabc\r\n4\r\n1234\r\n0\r\nFooter: value\r\n\r\n".toList
            (metaSet "Transfer-Encoding".toList
              (" chunked".toList.dropWhile aprIsspace) []) g1 g2) := by
      rw [fetch_line_crlf_ready 0 _ []
        "3\r\nabc\r\n4\r\n1234\r\n0\r\nFooter: value\r\n\r\n".toList Status.eof []
        rfl (by simp [midCtx]) (by intro c hc; simp at hc) (by decide) (by decide)]
      simp [midCtx]
    have hblank := headersLoop_blank 0 _ _ hfetchB rfl
    have hAH : afterHeaders
        (midCtx [] "3\r\nabc\r\n4\r\n1234\r\n0\r\nFooter: value\r\n\r\n".toList
          (metaSet "Transfer-Encoding".toList
            (" chunked".toList.dropWhile aprIsspace) []) g1 g2) =
        some (Status.ok,
          { midCtx [] "3\r\nabc\r\n4\r\n1234\r\n0\r\nFooter: value\r\n\r\n".toList
              (metaSet "Transfer-Encoding".toList
                (" chunked".toList.dropWhile aprIsspace) []) g1 g2 with
            state := RState.body }) := by
      have hmg : metaGet "Content-Length".toList
          (metaSet "Transfer-Encoding".toList
            (" chunked".toList.dropWhile aprIsspace) []) = none := by decide
      unfold afterHeaders
      rw [show (midCtx [] "3\r\nabc\r\n4\r\n1234\r\n0\r\nFooter: value\r\n\r\n".toList
          (metaSet "Transfer-Encoding".toList
            (" chunked".toList.dropWhile aprIsspace) []) g1 g2).headers =
          metaSet "Transfer-Encoding".toList
            (" chunked".toList.dropWhile aprIsspace) [] from rfl, hmg]
      simp [midCtx]
    have hrm := (run_machine_headers ((0 + 1) + 1)
        (afterSline "HTTP/1.1 200 OK".toList
          (("Transfer-Encoding".toList ++ ':' :: " chunked".toList) ++ '\r' :: '\n' ::
            ('\r' :: '\n' :: "3\r\nabc\r\n4\r\n1234\r\n0\r\nFooter: value\r\n\r\n".toList))
          g1 g2) rfl).trans (hcons.trans (hblank.trans hAH))
    rw [show (0 : Nat) + 2 = (0 + 1) + 1 from rfl,
      wait_for_body_step (0 + 1) ((0 + 1) + 1) _ _ (by simp [afterSline]) hrm,
      wait_for_body_done 0 ((0 + 1) + 1) _ (by simp [midCtx])]
    simp [midCtx]
  · decide

/-- Modelled from the spec (scenario 6): the mock bucket's
more-data-arrived call steps the script past an exhausted EAGAIN delivery
so the next scripted action becomes visible. -/
def mock_more_data_arrived (s : ByteStream) : ByteStream :=
  match s with
  | ([], _) :: rest => rest
  | s => s

theorem fetch_line_cr_gap (fuel : Nat) (ctx : RespCtx) (l : List Char)
    (more : ByteStream)
    (hl : ctx.lstate = LState.empty)
    (hstream : ctx.stream = (l ++ ['\r'], Status.ok) :: ([], Status.eagain) :: more)
    (h : noNL l)
    (hlen : ctx.line.length + (l.length + 1) ≤ LINE_LIMIT) :
    fetch_line (fuel + 2) ctx =
      some (Status.eagain,
        { ctx with stream := ([], Status.eagain) :: more,
                   lstate := LState.crlfSplit, line := ctx.line ++ l }) := by
  unfold fetch_line
  rw [if_neg (by simp [hl])]
  exact fetchLineLoop_cr_gap fuel ctx l more (by simp [hl]) hstream h hlen

theorem fetch_line_resume_split (fuel : Nat) (ctx : RespCtx) (c : Char)
    (d : List Char) (st : Status) (tail : ByteStream)
    (hl : ctx.lstate = LState.crlfSplit)
    (hstream : ctx.stream = ((c :: d), st) :: tail) :
    fetch_line (fuel + 1) ctx =
      some ((if tail = [] then st else Status.ok),
        { ctx with
            stream := if c = '\n' then (streamRead 1 (((c :: d), st) :: tail)).2.2
                      else ((c :: d), st) :: tail,
            lstate := LState.ready }) := by
  unfold fetch_line
  rw [if_neg (by simp [hl])]
  exact fetchLineLoop_resume_split fuel ctx c d st tail hl hstream

/-- C6: a fetch that ends exactly on a CR leaves the line buffer in the
crlf_split state with the CR dropped; the next fetch peeks one byte at
the underlying stream — an LF is consumed, any other byte is left
unconsumed for the next reader — and in both cases the line becomes
ready with its content excluding the terminator. -/
theorem C6_crlf_split (fuel : Nat) (pref d : List Char) (c : Char) (st : Status)
    (tail : ByteStream) (ctx : RespCtx)
    (hl : ctx.lstate = LState.empty) (hline : ctx.line = [])
    (hstream : ctx.stream =
      (pref ++ ['\r'], Status.ok) :: ([], Status.eagain) :: ((c :: d), st) :: tail)
    (h : noNL pref) (hlen : pref.length + 1 ≤ LINE_LIMIT) :
    fetch_line (fuel + 2) ctx =
      some (Status.eagain,
        { ctx with stream := ([], Status.eagain) :: ((c :: d), st) :: tail,
                   lstate := LState.crlfSplit, line := pref })
    ∧ fetch_line (fuel + 1)
        { ctx with
            stream := mock_more_data_arrived
              (([], Status.eagain) :: ((c :: d), st) :: tail),
            lstate := LState.crlfSplit, line := pref } =
      some ((if tail = [] then st else Status.ok),
        { ctx with
            stream := if c = '\n' then (streamRead 1 (((c :: d), st) :: tail)).2.2
                      else ((c :: d), st) :: tail,
            lstate := LState.ready, line := pref }) := by
  constructor
  · rw [fetch_line_cr_gap fuel ctx pref (((c :: d), st) :: tail) hl hstream h
      (by rw [hline]; simpa using hlen)]
    simp [hline]
  · rw [fetch_line_resume_split fuel _ c d st tail rfl rfl]

/-- C6 witness: the theorem applied to the scripted arrivals of
test_linebuf_crlf_split ("6" CR, then EAGAIN, then LF "blabla"…). -/
theorem C6_crlf_split_witness :
    fetch_line (0 + 2)
        (serf_bucket_response_create
          (("6".toList ++ ['\r'], Status.ok) :: ([], Status.eagain) ::
            (('\n' :: "blabla\r\n\r\n".toList), Status.eof) :: []) 0 0) =
      some (Status.eagain,
        { serf_bucket_response_create
            (("6".toList ++ ['\r'], Status.ok) :: ([], Status.eagain) ::
              (('\n' :: "blabla\r\n\r\n".toList), Status.eof) :: []) 0 0 with
          stream := ([], Status.eagain) ::
            (('\n' :: "blabla\r\n\r\n".toList), Status.eof) :: [],
          lstate := LState.crlfSplit, line := "6".toList })
    ∧ fetch_line (0 + 1)
        { serf_bucket_response_create
            (("6".toList ++ ['\r'], Status.ok) :: ([], Status.eagain) ::
              (('\n' :: "blabla\r\n\r\n".toList), Status.eof) :: []) 0 0 with
          stream := mock_more_data_arrived
            (([], Status.eagain) ::
              (('\n' :: "blabla\r\n\r\n".toList), Status.eof) :: []),
          lstate := LState.crlfSplit, line := "6".toList } =
      some ((if ([] : ByteStream) = [] then Status.eof else Status.ok),
        { serf_bucket_response_create
            (("6".toList ++ ['\r'], Status.ok) :: ([], Status.eagain) ::
              (('\n' :: "blabla\r\n\r\n".toList), Status.eof) :: []) 0 0 with
          stream := if '\n' = '\n' then
              (streamRead 1 ((('\n' :: "blabla\r\n\r\n".toList), Status.eof) :: [])).2.2
            else (('\n' :: "blabla\r\n\r\n".toList), Status.eof) :: [],
          lstate := LState.ready, line := "6".toList }) :=
  C6_crlf_split 0 "6".toList "blabla\r\n\r\n".toList '\n' Status.eof []
    (serf_bucket_response_create
      (("6".toList ++ ['\r'], Status.ok) :: ([], Status.eagain) ::
        (('\n' :: "blabla\r\n\r\n".toList), Status.eof) :: []) 0 0)
    rfl rfl rfl (by decide) (by decide)

/-- C4: with a fatal error latched in fatal_err, a read through either
the encrypt or the decrypt bucket returns exactly the latched error with
no data, and the shared context — the latch included — is left unchanged,
whatever the TLS engine would do. -/
theorem C4_fatal_latch (eng : Engine) (b : SSLBucket) (fuel bufsize : Nat)
    (ctx : SSLCtx) (e : Status) (he : ctx.fatal_err = e) (hne : e ≠ Status.ok) :
    serf_ssl_read eng b fuel bufsize ctx = some (e, [], ctx) := by
  cases b with
  | mk os =>
      cases os
      · simp [serf_ssl_read, ssl_encrypt, he, hne]
      · simp [serf_ssl_read, ssl_decrypt, he, hne]

/-- A TLS engine used to instantiate engine-generic theorems. -/
def idEngine : Engine :=
  { sslRead := fun c _ => (SSLReadRes.zero true true, c)
    sslWrite := fun c _ => (SSLWriteRes.written, c) }

/-- A shared TLS context with a latched fatal error. -/
def ctxFatal : SSLCtx :=
  { refcount := 2, crypt_status := Status.ok, pending_err := Status.ok,
    fatal_err := Status.sslCommFailed, want_read := false,
    renegotiation := false, encrypt_pending := some [],
    encrypt_stream := some [], encrypt_stream_next := [],
    encrypt_databuf_status := Status.ok, decrypt_stream := some [] }

/-- C4 witness: both reads of the pair applied at a context whose
fatal_err holds SSL_COMM_FAILED. -/
theorem C4_fatal_latch_witness :
    serf_ssl_read idEngine ⟨StreamField.encryptStream⟩ 3 10 ctxFatal =
      some (Status.sslCommFailed, [], ctxFatal)
    ∧ serf_ssl_read idEngine ⟨StreamField.decryptStream⟩ 3 10 ctxFatal =
      some (Status.sslCommFailed, [], ctxFatal) :=
  ⟨C4_fatal_latch idEngine ⟨StreamField.encryptStream⟩ 3 10 ctxFatal
      Status.sslCommFailed rfl (by decide),
   C4_fatal_latch idEngine ⟨StreamField.decryptStream⟩ 3 10 ctxFatal
      Status.sslCommFailed rfl (by decide)⟩

/-- C8: when encrypt_pending holds ciphertext, ssl_encrypt returns those
bytes (up to the requested size) immediately with APR_SUCCESS; the result
does not depend on the engine, the plaintext encrypt stream is not read,
and only the pending aggregate is drained. -/
theorem C8_pending_fast_path (eng : Engine) (fuel bufsize : Nat) (ctx : SSLCtx)
    (ch : Char) (chs : List Char) (pend : List (List Char))
    (hfatal : ctx.fatal_err = Status.ok)
    (hpend : ctx.encrypt_pending = some ((ch :: chs) :: pend))
    (hbuf : bufsize ≠ 0) :
    ssl_encrypt eng fuel bufsize ctx =
      some (Status.ok, (ch :: chs).take bufsize,
        { ctx with
            encrypt_pending := some (aggRead bufsize ((ch :: chs) :: pend)).2.2 }) := by
  unfold ssl_encrypt
  rw [hfatal]
  simp only [ne_eq, not_true_eq_false, if_false, hpend]
  unfold aggRead
  by_cases hle : chs.length + 1 ≤ bufsize
  · have htake : (ch :: chs).take bufsize = ch :: chs :=
      List.take_of_length_le (by simpa using hle)
    rcases pend with _ | ⟨p, ps⟩ <;> simp [hle, readError, htake]
  · rcases bufsize with _ | b
    · exact absurd rfl hbuf
    · simp [hle, readError]

/-- A shared TLS context with pending ciphertext and no fatal error. -/
def ctxPending : SSLCtx :=
  { refcount := 2, crypt_status := Status.ok, pending_err := Status.ok,
    fatal_err := Status.ok, want_read := false, renegotiation := false,
    encrypt_pending := some [['A', 'B']],
    encrypt_stream := some [("plain".toList, Status.eof)],
    encrypt_stream_next := [], encrypt_databuf_status := Status.ok,
    decrypt_stream := some [] }

/-- C8 witness: the fast path applied at a context holding the pending
chunk "AB". -/
theorem C8_pending_fast_path_witness :
    ssl_encrypt idEngine 5 10 ctxPending =
      some (Status.ok, ['A', 'B'].take 10,
        { ctxPending with encrypt_pending := some (aggRead 10 [['A', 'B']]).2.2 }) :=
  C8_pending_fast_path idEngine 5 10 ctxPending 'A' ['B'] [] rfl rfl (by decide)

/-- C9: creating a decrypt bucket on a context that already has a decrypt
stream attached returns NULL instead of a bucket and leaves the attached
stream in place; since this is the only code that ever assigns
decrypt.stream — and only when it is NULL — at most one decrypt stream is
ever attached. -/
theorem C9_decrypt_create_null (stream s : ByteStream) (ctx : SSLCtx)
    (h : ctx.decrypt_stream = some s) :
    (serf_bucket_ssl_decrypt_create stream ctx).1 = none
    ∧ (serf_bucket_ssl_decrypt_create stream ctx).2.decrypt_stream = some s := by
  unfold serf_bucket_ssl_decrypt_create
  simp [h]

/-- C9 witness: the theorem applied at a context with an attached decrypt
stream. -/
theorem C9_decrypt_create_null_witness :
    (serf_bucket_ssl_decrypt_create [] ctxPending).1 = none
    ∧ (serf_bucket_ssl_decrypt_create [] ctxPending).2.decrypt_stream = some [] :=
  C9_decrypt_create_null [] [] ctxPending rfl

/-- A fresh shared TLS context before any encrypt bucket is created. -/
def c10base : SSLCtx :=
  { refcount := 0, crypt_status := Status.ok, pending_err := Status.ok,
    fatal_err := Status.ok, want_read := false, renegotiation := false,
    encrypt_pending := some ["CIPH".toList],
    encrypt_stream := none, encrypt_stream_next := [],
    encrypt_databuf_status := Status.ok, decrypt_stream := none }

/-- The first encrypt source stream. -/
def c10s1 : ByteStream := [("AAAA".toList, Status.eof)]

/-- The second encrypt source stream, queued behind the first. -/
def c10s2 : ByteStream := [("BBBB".toList, Status.eof)]

/-- The context after both encrypt buckets have been created: refcount 2,
c10s1 active, c10s2 queued in encrypt.stream_next. -/
def c10ctx : SSLCtx :=
  (serf_bucket_ssl_encrypt_create c10s2
    (serf_bucket_ssl_encrypt_create c10s1 c10base).2).2

/-- The second encrypt bucket, the one whose source stream c10s2 is still
queued. -/
def c10bkt : SSLBucket :=
  (serf_bucket_ssl_encrypt_create c10s2
    (serf_bucket_ssl_encrypt_create c10s1 c10base).2).1

/-- C10: destroying the encrypt bucket whose source stream is still
queued does NOT leave the shared context unchanged.  Because every
encrypt bucket's our_stream is the address of the context's
encrypt.stream field itself, the destroy guard compares that field with
itself and always takes the teardown branch: the active stream is
destroyed, the pending ciphertext aggregate is replaced by a fresh empty
one, the queued stream is promoted to active, and the refcount is
decremented. -/
theorem C10_queued_destroy_mutates :
    c10ctx.encrypt_stream = some c10s1
    ∧ c10ctx.encrypt_stream_next = [c10s2]
    ∧ c10ctx.refcount = 2
    ∧ serf_ssl_encrypt_destroy_and_data c10bkt c10ctx =
        some ({ c10ctx with
                  refcount := 1, encrypt_stream := some c10s2,
                  encrypt_stream_next := [], encrypt_pending := some [] },
              false)
    ∧ (serf_ssl_encrypt_destroy_and_data c10bkt c10ctx).map (fun r => r.1)
        ≠ some c10ctx := by
  refine ⟨by decide, by decide, by decide, by decide, by decide⟩
